import Mathlib

/-!
Shallow embedding of `src/server.js` of the Ejkarl/task-management
repository: a task-management HTTP API backed by a MongoDB collection
through Mongoose.  Pure data is modelled directly; the document store is
modelled as an explicit state (`Store`) threaded through the handlers,
with a fault field that makes every store round trip raise a given error
message (connectivity loss, malformed-identifier cast errors, and other
store-raised failures are all surfaced to the handlers as a caught
exception carrying a message, which is all the handlers inspect).

Store-call semantics follow the documented behaviour of the Mongoose /
MongoDB layer the code calls into:
  * `new Task(body)` keeps only schema paths (strict mode default), and
    `save()` runs the schema validators (`title` required and non-empty,
    `status` in the enum, with `status` defaulting to `"Pending"`) before
    touching the network; `timestamps: true` sets `createdAt`/`updatedAt`.
  * `findByIdAndUpdate` does NOT run the schema validators (Mongoose
    default `runValidators: false`); with `timestamps: true` it strips the
    immutable `createdAt` path from the update, sets `updatedAt`, and
    `$set`s the remaining supplied paths.  Supplying `_id` with a value
    different from the matched document's makes the store raise an
    immutable-field error.
  * `_id` values are unique within the collection.
Dates and ObjectIds are abstracted to `Nat`.
-/

namespace TaskApi

/-- One persisted document of the `Task` collection: the schema paths of
`taskSchema` (`src/server.js` lines 19-24) plus the store-assigned `_id`
and the `timestamps: true` pair `createdAt`/`updatedAt`. -/
structure Task where
  id : Nat
  title : String
  description : Option String
  dueDate : Option Nat
  status : String
  createdAt : Nat
  updatedAt : Nat
deriving DecidableEq, Repr

/-- The document store.  `docs` is the collection; `fault`, when set,
makes every store round trip raise an error with that message (this is
how connectivity loss, malformed-identifier cast errors and other
store-raised failures reach the `catch` blocks of the handlers). -/
structure Store where
  docs : List Task
  fault : Option String
deriving DecidableEq, Repr

/-- A parsed JSON request body, restricted to the keys the service can
react to; `extra` carries any further keys (which Mongoose strict mode
discards).  A `none` field is an absent key. -/
structure ReqBody where
  title? : Option String := none
  description? : Option String := none
  dueDate? : Option Nat := none
  status? : Option String := none
  createdAt? : Option Nat := none
  id? : Option Nat := none
  extra : List (String × String) := []
deriving DecidableEq, Repr

/-- A response body: a single task, an array of tasks, or a
`{"message": ...}` object. -/
inductive Body where
  | task (t : Task)
  | tasks (l : List Task)
  | msg (m : String)
deriving DecidableEq, Repr

/-- An HTTP response: status code and JSON body. -/
structure Resp where
  status : Nat
  body : Body
deriving DecidableEq, Repr

/-- The two values of the `status` enum of `taskSchema`. -/
def validStatus (s : String) : Bool :=
  s == "Pending" || s == "Completed"

/-- Newest-created-first ordering used by `.sort({ createdAt: -1 })`. -/
def createdDesc (a b : Task) : Prop := b.createdAt ≤ a.createdAt

instance : DecidableRel createdDesc := fun a b =>
  inferInstanceAs (Decidable (b.createdAt ≤ a.createdAt))

instance : IsTotal Task createdDesc :=
  ⟨fun a b => (Nat.le_total b.createdAt a.createdAt).elim Or.inl Or.inr⟩

instance : IsTrans Task createdDesc :=
  ⟨fun _ _ _ h1 h2 => Nat.le_trans h2 h1⟩

/-- `Task.find().sort({ createdAt: -1 })`: the whole collection, ordered
by `createdAt` descending. -/
def Store.findAllSorted (s : Store) : Except String (List Task) :=
  match s.fault with
  | some m => .error m
  | none => .ok (s.docs.insertionSort createdDesc)

/-- `Task.find(q)` for an equality / regex query: the documents
satisfying the predicate, in collection order. -/
def Store.findWhere (s : Store) (p : Task → Bool) : Except String (List Task) :=
  match s.fault with
  | some m => .error m
  | none => .ok (s.docs.filter p)

/-- `Task.findById(id)`: `none` when no document matches. -/
def Store.findById (s : Store) (i : Nat) : Except String (Option Task) :=
  match s.fault with
  | some m => .error m
  | none => .ok (s.docs.find? (fun d => d.id == i))

/-- `new Task(body); task.save()`.  The constructor keeps only schema
paths (strict mode); `save` runs the validators — `title` present and
non-empty, `status` (after the `"Pending"` default) in the enum — before
the network round trip, then the store assigns `_id` and, via
`timestamps: true`, `createdAt = updatedAt = now`. -/
def Store.saveNew (s : Store) (b : ReqBody) (newId now : Nat) :
    Except String (Task × Store) :=
  match b.title? with
  | none => .error "Task validation failed: title is required"
  | some τ =>
    if τ = "" then .error "Task validation failed: title is required"
    else
      let st := b.status?.getD "Pending"
      if validStatus st then
        match s.fault with
        | some m => .error m
        | none =>
          let t : Task :=
            ⟨newId, τ, b.description?, b.dueDate?, st, now, now⟩
          .ok (t, ⟨s.docs ++ [t], s.fault⟩)
      else .error "Task validation failed: status is not a valid enum value"

/-- The effect of `findByIdAndUpdate`'s `$set` on the matched document:
supplied schema paths are replaced, absent ones keep their stored value,
the immutable `createdAt` path is stripped from the update by the
timestamps plugin, `updatedAt` is set by the store, and the validators
are NOT run (Mongoose default `runValidators: false`). -/
def applyUpdate (t : Task) (b : ReqBody) (now : Nat) : Task :=
  { id := t.id
    title := b.title?.getD t.title
    description := match b.description? with
      | some d => some d
      | none => t.description
    dueDate := match b.dueDate? with
      | some d => some d
      | none => t.dueDate
    status := b.status?.getD t.status
    createdAt := t.createdAt
    updatedAt := now }

/-- `Task.findByIdAndUpdate(id, update, { new: true })`: `none` when no
document matches; a supplied `_id` differing from the matched document's
makes the store raise an immutable-field error; otherwise the matched
document is replaced by `applyUpdate` and returned in its new state. -/
def Store.findByIdAndUpdate (s : Store) (i : Nat) (b : ReqBody) (now : Nat) :
    Except String (Option Task × Store) :=
  match s.fault with
  | some m => .error m
  | none =>
    match s.docs.find? (fun d => d.id == i) with
    | none => .ok (none, s)
    | some t =>
      match b.id? with
      | some j =>
        if j == t.id then
          let t2 := applyUpdate t b now
          .ok (some t2, ⟨s.docs.map (fun d => if d.id == i then t2 else d), s.fault⟩)
        else .error "cannot modify immutable field _id"
      | none =>
        let t2 := applyUpdate t b now
        .ok (some t2, ⟨s.docs.map (fun d => if d.id == i then t2 else d), s.fault⟩)

/-- `Task.findByIdAndDelete(id)`: `none` when no document matches,
otherwise the removed document and the shrunk collection. -/
def Store.findByIdAndDelete (s : Store) (i : Nat) :
    Except String (Option Task × Store) :=
  match s.fault with
  | some m => .error m
  | none =>
    match s.docs.find? (fun d => d.id == i) with
    | none => .ok (none, s)
    | some t =>
      .ok (some t, ⟨s.docs.filter (fun d => !(d.id == i)), s.fault⟩)

/-- `Task.deleteMany(q)`: removes every matching document and reports
`deletedCount`. -/
def Store.deleteMany (s : Store) (p : Task → Bool) :
    Except String (Nat × Store) :=
  match s.fault with
  | some m => .error m
  | none =>
    .ok ((s.docs.filter p).length, ⟨s.docs.filter (fun d => !(p d)), s.fault⟩)

/-!  MongoDB `$regex` with `$options: 'i'`, as used by the keyword-search
route.  The keyword is passed to the store unescaped, so its regex
metacharacters keep their pattern meaning.  We model only the fragment
of the pattern language on which it can be faithful: keywords free of
every metacharacter (all characters literal), plus the wildcard
metacharacter `.` (any single character) as the representative
metacharacter for the pattern-semantics side.  Keywords containing any
other metacharacter (`*`, `+`, `?`, `^`, `$`, brackets, braces, `|`,
`\`) are outside this fragment: the embedding takes no stance on them,
and the substring theorem below assumes the keyword free of ALL
metacharacters.  Matching is unanchored (the pattern may match at any
position) and case-insensitive. -/

/-- The PCRE metacharacters that keep their pattern meaning because the
route passes the keyword to `$regex` unescaped. -/
def regexMeta : List Char :=
  ['.', '*', '+', '?', '^', '$', '[', ']', '(', ')', '\u007B', '\u007D', '|', '\\']

/-- A keyword in which every character is a regex literal: it contains
no metacharacter at all.  Only on such keywords does the fragment model
below coincide with the full pattern language the store implements. -/
def litKeyword (k : String) : Bool :=
  k.toList.all (fun c => !(regexMeta.contains c))

/-- One token of the modelled pattern fragment: the `.` wildcard or a
literal character. -/
inductive RTok where
  | dot
  | lit (c : Char)
deriving DecidableEq, Repr

/-- Compile a keyword into tokens of the fragment: `.` becomes the
wildcard, every other character a literal (the code does not escape the
keyword).  This is faithful to the store's pattern language only on the
fragment's domain: keywords satisfying `litKeyword` (where it degenerates
to all-literal) and keywords whose sole metacharacter is `.`; it is NOT
used to settle anything about keywords containing other metacharacters,
whose pattern meaning the fragment does not model. -/
def compilePat (k : String) : List RTok :=
  k.toList.map (fun c => if c = '.' then RTok.dot else RTok.lit c)

/-- Case-insensitive match of one pattern token against one character. -/
def tokMatches : RTok → Char → Bool
  | RTok.dot, _ => true
  | RTok.lit c, d => c.toLower == d.toLower

/-- Match a whole token list against a prefix of the text. -/
def matchesAt : List RTok → List Char → Bool
  | [], _ => true
  | _ :: _, [] => false
  | t :: ts, c :: cs => tokMatches t c && matchesAt ts cs

/-- Unanchored search: the pattern matches starting at some position of
the text. -/
def regexFind (pat : List RTok) : List Char → Bool
  | [] => matchesAt pat []
  | c :: cs => matchesAt pat (c :: cs) || regexFind pat cs

/-- `$regex: keyword, $options: 'i'` applied to a string field. -/
def regexTest (keyword text : String) : Bool :=
  regexFind (compilePat keyword) text.toList

/-- Case-insensitive literal-substring containment, the semantics the
spec describes for metacharacter-free keywords: stated over the
lower-cased character lists. -/
def isPrefixList : List Char → List Char → Bool
  | [], _ => true
  | _ :: _, [] => false
  | a :: as, b :: bs => a == b && isPrefixList as bs

/-- `needle` occurs as a contiguous substring of `hay`. -/
def containsSub (needle : List Char) : List Char → Bool
  | [] => isPrefixList needle []
  | c :: cs => isPrefixList needle (c :: cs) || containsSub needle cs

/-- Case-insensitive substring containment on strings. -/
def substrCI (keyword text : String) : Bool :=
  containsSub (keyword.toList.map Char.toLower) (text.toList.map Char.toLower)

/-!  The route handlers of `src/server.js`.  Each handler takes the
request data and the store, and returns the HTTP response together with
the store state after the request.  `now` stands for the store-side
clock at the moment of the write, `newId` for the ObjectId the store
assigns to an inserted document. -/

/-- `GET /api/v1/tasks` (lines 36-43): list all, newest-created-first;
a store error is reported as 500 with the error's message. -/
def getTasks (s : Store) : Resp × Store :=
  match s.findAllSorted with
  | .ok l => (⟨200, Body.tasks l⟩, s)
  | .error m => (⟨500, Body.msg m⟩, s)

/-- `GET /api/v1/tasks/:id` (lines 46-54): point lookup; 404 when absent;
a store error (including a malformed id) is 500 with the message. -/
def getTaskById (i : Nat) (s : Store) : Resp × Store :=
  match s.findById i with
  | .ok none => (⟨404, Body.msg "Task not found"⟩, s)
  | .ok (some t) => (⟨200, Body.task t⟩, s)
  | .error m => (⟨500, Body.msg m⟩, s)

/-- `POST /api/v1/tasks` (lines 57-65): insert with defaults; any error
raised by `new Task(...)`/`save()` — validation or store — is 400 with
the message. -/
def createTask (b : ReqBody) (newId now : Nat) (s : Store) : Resp × Store :=
  match s.saveNew b newId now with
  | .ok (t, s2) => (⟨201, Body.task t⟩, s2)
  | .error m => (⟨400, Body.msg m⟩, s)

/-- `PUT /api/v1/tasks/:id` (lines 68-76): `findByIdAndUpdate` with the
raw body; 404 when absent; any caught error — store errors included — is
400 with the message. -/
def putTask (i : Nat) (b : ReqBody) (now : Nat) (s : Store) : Resp × Store :=
  match s.findByIdAndUpdate i b now with
  | .ok (none, s2) => (⟨404, Body.msg "Task not found"⟩, s2)
  | .ok (some t, s2) => (⟨200, Body.task t⟩, s2)
  | .error m => (⟨400, Body.msg m⟩, s)

/-- `PATCH /api/v1/tasks/:id/status` (lines 79-91): the handler
validates `status` against the enum before any store call (an absent
field fails the check too); then `findByIdAndUpdate` with `{ status }`;
404 when absent; any caught error is 400 with the message. -/
def patchStatus (i : Nat) (st : Option String) (now : Nat) (s : Store) :
    Resp × Store :=
  if !(st == some "Pending" || st == some "Completed") then
    (⟨400, Body.msg "Invalid status value"⟩, s)
  else
    match s.findByIdAndUpdate i { status? := st } now with
    | .ok (none, s2) => (⟨404, Body.msg "Task not found"⟩, s2)
    | .ok (some t, s2) => (⟨200, Body.task t⟩, s2)
    | .error m => (⟨400, Body.msg m⟩, s)

/-- `DELETE /api/v1/tasks/:id` (lines 94-102): delete by id; 404 when
absent; a store error is 500 with the message. -/
def deleteTask (i : Nat) (s : Store) : Resp × Store :=
  match s.findByIdAndDelete i with
  | .ok (none, s2) => (⟨404, Body.msg "Task not found"⟩, s2)
  | .ok (some _, s2) => (⟨200, Body.msg "Task deleted successfully"⟩, s2)
  | .error m => (⟨500, Body.msg m⟩, s)

/-- `GET /api/v1/tasks/status/:status` (lines 105-113): equality filter
on the raw path segment, no validation; a store error is 500. -/
def getTasksByStatus (σ : String) (s : Store) : Resp × Store :=
  match s.findWhere (fun t => t.status == σ) with
  | .ok l => (⟨200, Body.tasks l⟩, s)
  | .error m => (⟨500, Body.msg m⟩, s)

/-- `GET /api/v1/tasks/search/:keyword` (lines 116-129): `$or` of
case-insensitive `$regex` on `title` and `description` (a document with
no `description` field does not match on that branch); a store error is
500. -/
def searchTasks (keyword : String) (s : Store) : Resp × Store :=
  match s.findWhere (fun t =>
      regexTest keyword t.title ||
      (match t.description with
       | some d => regexTest keyword d
       | none => false)) with
  | .ok l => (⟨200, Body.tasks l⟩, s)
  | .error m => (⟨500, Body.msg m⟩, s)

/-- `DELETE /api/v1/tasks` (lines 132-139): `deleteMany` on
`status == "Completed"`, answering with the deleted count; a store error
is 500. -/
def deleteCompleted (s : Store) : Resp × Store :=
  match s.deleteMany (fun t => t.status == "Completed") with
  | .ok (n, s2) =>
    (⟨200, Body.msg ("Deleted " ++ toString n ++ " completed tasks.")⟩, s2)
  | .error m => (⟨500, Body.msg m⟩, s)

/-!  A few concrete fixtures used by witnesses and counterexamples. -/

/-- A sample pending task. -/
def demoTask : Task := ⟨1, "Report", none, none, "Pending", 10, 10⟩

/-- A sample completed task created later than `demoTask`. -/
def demoTask2 : Task := ⟨2, "Buy milk", some "2 litres", none, "Completed", 15, 15⟩

/-- A healthy two-document store. -/
def demoStore : Store := ⟨[demoTask, demoTask2], none⟩

/-- A store whose every round trip raises "connection lost". -/
def faultedStore : Store := ⟨[demoTask], some "connection lost"⟩

/-- Splitting a list by a Boolean predicate preserves its length. -/
theorem length_filter_split (l : List Task) (p : Task → Bool) :
    (l.filter (fun d => !(p d))).length + (l.filter p).length = l.length := by
  induction l with
  | nil => rfl
  | cons a l ih =>
    cases h : p a <;> simp [List.filter_cons, h] <;> omega

/-!  Claims. -/

/-- C1.  The spec claims every persisted Task has a non-empty `title` and
a `status` in {"Pending", "Completed"}, preserved by every operation.
The schema (`required`, `enum`) states this intent, but the PUT handler
calls `findByIdAndUpdate`, which does not run the schema validators
(Mongoose default), so a full update persists `status = "Archived"`
(and likewise an empty `title`): after creating a valid task, a PUT with
body `{status: "Archived"}` answers 200 and the stored document's status
is outside the enum. -/
theorem put_bypasses_schema_validation :
    (createTask { title? := some "Report" } 1 10 ⟨[], none⟩).1.status = 201 ∧
    (∀ t ∈ (createTask { title? := some "Report" } 1 10 ⟨[], none⟩).2.docs,
      validStatus t.status = true) ∧
    (putTask 1 { status? := some "Archived" } 20
        (createTask { title? := some "Report" } 1 10 ⟨[], none⟩).2).1.status = 200 ∧
    (∃ t ∈ (putTask 1 { status? := some "Archived" } 20
        (createTask { title? := some "Report" } 1 10 ⟨[], none⟩).2).2.docs,
      validStatus t.status = false ∧ t.title ≠ "") := by
  refine ⟨rfl, ?_, rfl, ?_⟩
  · intro t ht
    simp only [createTask, Store.saveNew, validStatus] at ht ⊢
    simp at ht
    subst ht
    rfl
  · exact ⟨⟨1, "Report", none, none, "Archived", 10, 20⟩, by decide⟩

/-- C2 counterexample.  The claim says a store error on full update (PUT)
yields HTTP 500 with the store's message; the PUT handler's catch block
answers 400 instead (still with the verbatim message). -/
theorem put_store_error_responds_400 :
    putTask 1 {} 20 faultedStore =
      (⟨400, Body.msg "connection lost"⟩, faultedStore) ∧
    (putTask 1 {} 20 faultedStore).1.status ≠ 500 := by
  exact ⟨rfl, by decide⟩

/-- C2 amended.  When the store raises an error, its message is surfaced
verbatim in `{"message": ...}`; the status is 500 for list, get-by-id,
delete-by-id, filter-by-status, keyword-search and delete-all-completed,
but 400 (not 500) for create, full update (PUT) and status update
(PATCH), whose catch blocks use 400. -/
theorem store_error_responses (s : Store) (m : String) (i newId now : Nat)
    (b : ReqBody) (σ k : String) (h : s.fault = some m) :
    getTasks s = (⟨500, Body.msg m⟩, s) ∧
    getTaskById i s = (⟨500, Body.msg m⟩, s) ∧
    deleteTask i s = (⟨500, Body.msg m⟩, s) ∧
    getTasksByStatus σ s = (⟨500, Body.msg m⟩, s) ∧
    searchTasks k s = (⟨500, Body.msg m⟩, s) ∧
    deleteCompleted s = (⟨500, Body.msg m⟩, s) ∧
    putTask i b now s = (⟨400, Body.msg m⟩, s) ∧
    patchStatus i (some "Pending") now s = (⟨400, Body.msg m⟩, s) ∧
    createTask { title? := some "T" } newId now s = (⟨400, Body.msg m⟩, s) := by
  obtain ⟨docs, fault⟩ := s
  cases h
  exact ⟨rfl, rfl, rfl, rfl, rfl, rfl, rfl, rfl, rfl⟩

/-- C2 witness: the amended behaviour at a concrete faulted store. -/
theorem store_error_responses_witness :
    faultedStore.fault = some "connection lost" ∧
    getTasks faultedStore =
      (⟨500, Body.msg "connection lost"⟩, faultedStore) ∧
    patchStatus 1 (some "Pending") 30 faultedStore =
      (⟨400, Body.msg "connection lost"⟩, faultedStore) := by
  refine ⟨rfl, ?_, ?_⟩
  · exact (store_error_responses faultedStore "connection lost" 1 9 30 {} "P" "k" rfl).1
  · exact (store_error_responses faultedStore "connection lost" 1 9 30 {} "P" "k"
      rfl).2.2.2.2.2.2.2.1

/-- C3.  A status-update request whose `status` is not "Pending" or
"Completed" (an absent field included) is answered 400 with
"Invalid status value" and the store is returned untouched; the check
precedes any store call, so this holds for every store state, faulted
ones included. -/
theorem patch_invalid_status_rejected_before_store (i : Nat)
    (st : Option String) (now : Nat) (s : Store)
    (h1 : st ≠ some "Pending") (h2 : st ≠ some "Completed") :
    patchStatus i st now s = (⟨400, Body.msg "Invalid status value"⟩, s) := by
  have e1 : (st == some "Pending") = false := beq_eq_false_iff_ne.mpr h1
  have e2 : (st == some "Completed") = false := beq_eq_false_iff_ne.mpr h2
  simp [patchStatus, e1, e2]

/-- C3 witness: `status = "Archived"` on a healthy store holding the
addressed document, and an absent `status` field, both answer 400 and
leave the store as it was. -/
theorem patch_invalid_status_witness :
    patchStatus 1 (some "Archived") 30 demoStore =
      (⟨400, Body.msg "Invalid status value"⟩, demoStore) ∧
    patchStatus 1 none 30 demoStore =
      (⟨400, Body.msg "Invalid status value"⟩, demoStore) :=
  ⟨patch_invalid_status_rejected_before_store 1 (some "Archived") 30 demoStore
      (by decide) (by decide),
    patch_invalid_status_rejected_before_store 1 none 30 demoStore
      (by decide) (by decide)⟩

/-- C8.  Filter-by-status does no enum validation: for every path segment
`σ` it answers 200 with exactly the documents whose status equals `σ`
verbatim; when every stored status is in the enum and `σ` is not, the
array is empty. -/
theorem filter_by_status_no_validation (σ : String) (s : Store)
    (h : s.fault = none) :
    getTasksByStatus σ s =
      (⟨200, Body.tasks (s.docs.filter (fun t => t.status == σ))⟩, s) ∧
    ((∀ t ∈ s.docs, t.status = "Pending" ∨ t.status = "Completed") →
      σ ≠ "Pending" → σ ≠ "Completed" →
      s.docs.filter (fun t => t.status == σ) = []) := by
  obtain ⟨docs, fault⟩ := s
  cases h
  refine ⟨rfl, fun henum h1 h2 => ?_⟩
  refine List.filter_eq_nil_iff.mpr fun t ht => ?_
  rcases henum t ht with h3 | h3
  · simp only [h3, beq_iff_eq]
    exact fun e => h1 e.symm
  · simp only [h3, beq_iff_eq]
    exact fun e => h2 e.symm

/-- C8 witness: filtering the demo store by "Completed" returns exactly
the completed document; filtering by "Archived" returns the empty
array with status 200. -/
theorem filter_by_status_witness :
    getTasksByStatus "Completed" demoStore =
      (⟨200, Body.tasks [demoTask2]⟩, demoStore) ∧
    getTasksByStatus "Archived" demoStore =
      (⟨200, Body.tasks []⟩, demoStore) := by
  constructor
  · have h := (filter_by_status_no_validation "Completed" demoStore rfl).1
    simpa [demoStore, demoTask, demoTask2] using h
  · have h := (filter_by_status_no_validation "Archived" demoStore rfl).1
    simpa [demoStore, demoTask, demoTask2] using h

/-- C9.  List-all answers 200 with a permutation of the whole collection
that is sorted by `createdAt` descending (newest-created first). -/
theorem list_all_sorted_newest_first (s : Store) (h : s.fault = none) :
    getTasks s =
      (⟨200, Body.tasks (s.docs.insertionSort createdDesc)⟩, s) ∧
    (s.docs.insertionSort createdDesc).Perm s.docs ∧
    (s.docs.insertionSort createdDesc).Sorted createdDesc := by
  obtain ⟨docs, fault⟩ := s
  cases h
  exact ⟨rfl, List.perm_insertionSort _ _, List.sorted_insertionSort _ _⟩

/-- C9 witness: on the demo store (older pending task listed first in
the collection) list-all returns the completed task first, as it was
created later. -/
theorem list_all_sorted_witness :
    getTasks demoStore = (⟨200, Body.tasks [demoTask2, demoTask]⟩, demoStore) := by
  have h := (list_all_sorted_newest_first demoStore rfl).1
  simpa [demoStore, demoTask, demoTask2, createdDesc] using h

/-- C4.  A status update with a valid status on an existing task answers
200 with the updated document; only `status` and `updatedAt` change
(`id`, `title`, `description`, `dueDate`, `createdAt` are those of the
stored document), and every other document of the collection is
untouched. -/
theorem patch_valid_status_changes_only_status (s : Store) (i : Nat)
    (t : Task) (st : String) (now : Nat) (hf : s.fault = none)
    (hfind : s.docs.find? (fun d => d.id == i) = some t)
    (hst : st = "Pending" ∨ st = "Completed") :
    patchStatus i (some st) now s =
      (⟨200, Body.task { t with status := st, updatedAt := now }⟩,
        ⟨s.docs.map (fun d => if d.id == i then
            { t with status := st, updatedAt := now } else d), none⟩) ∧
    ({ t with status := st, updatedAt := now } : Task).id = t.id ∧
    ({ t with status := st, updatedAt := now } : Task).title = t.title ∧
    ({ t with status := st, updatedAt := now } : Task).description
      = t.description ∧
    ({ t with status := st, updatedAt := now } : Task).dueDate = t.dueDate ∧
    ({ t with status := st, updatedAt := now } : Task).createdAt
      = t.createdAt ∧
    (∀ d ∈ s.docs, d.id ≠ i → d ∈ (patchStatus i (some st) now s).2.docs) := by
  obtain ⟨docs, fault⟩ := s
  cases hf
  have hcond : (some st == some "Pending" || some st == some "Completed")
      = true := by
    rcases hst with h | h <;> simp [h]
  have h1 : patchStatus i (some st) now ⟨docs, none⟩ =
      (⟨200, Body.task { t with status := st, updatedAt := now }⟩,
        ⟨docs.map (fun d => if d.id == i then
            { t with status := st, updatedAt := now } else d), none⟩) := by
    simp only [patchStatus, hcond, Bool.not_true, Bool.false_eq_true,
      if_false, Store.findByIdAndUpdate, hfind]
    rfl
  refine ⟨h1, rfl, rfl, rfl, rfl, rfl, fun d hd hdi => ?_⟩
  rw [h1]
  simp only [List.mem_map]
  exact ⟨d, hd, by simp [beq_eq_false_iff_ne.mpr hdi]⟩

/-- C4 witness: completing `demoTask` in the demo store. -/
theorem patch_valid_status_witness :
    patchStatus 1 (some "Completed") 42 demoStore =
      (⟨200, Body.task ⟨1, "Report", none, none, "Completed", 10, 42⟩⟩,
        ⟨[⟨1, "Report", none, none, "Completed", 10, 42⟩, demoTask2], none⟩) := by
  have h := (patch_valid_status_changes_only_status demoStore 1 demoTask
    "Completed" 42 rfl (by decide) (Or.inr rfl)).1
  simpa [demoStore, demoTask, demoTask2] using h

/-- C5.  A full update (PUT) on an existing task replaces exactly the
supplied schema fields: absent fields keep their stored values, `id` and
`createdAt` are unchanged even when the body supplies `createdAt` (the
store strips the immutable timestamp path) or `_id` equal to the
document's own; a body supplying a *different* `_id` makes the store
raise, the handler answers 400, and the store is left entirely
unchanged — so `id` and `createdAt` are equal before and after in every
case, and untouched documents are never modified. -/
theorem put_partial_update_frame (s : Store) (i : Nat) (t : Task)
    (b : ReqBody) (now : Nat) (hf : s.fault = none)
    (hfind : s.docs.find? (fun d => d.id == i) = some t) :
    ((b.id? = none ∨ b.id? = some t.id) →
      putTask i b now s =
        (⟨200, Body.task (applyUpdate t b now)⟩,
          ⟨s.docs.map (fun d => if d.id == i then applyUpdate t b now else d),
            none⟩) ∧
      (applyUpdate t b now).id = t.id ∧
      (applyUpdate t b now).createdAt = t.createdAt ∧
      (b.title? = none → (applyUpdate t b now).title = t.title) ∧
      (b.description? = none →
        (applyUpdate t b now).description = t.description) ∧
      (b.dueDate? = none → (applyUpdate t b now).dueDate = t.dueDate) ∧
      (b.status? = none → (applyUpdate t b now).status = t.status) ∧
      (∀ x, b.title? = some x → (applyUpdate t b now).title = x) ∧
      (∀ x, b.description? = some x →
        (applyUpdate t b now).description = some x) ∧
      (∀ x, b.dueDate? = some x → (applyUpdate t b now).dueDate = some x) ∧
      (∀ x, b.status? = some x → (applyUpdate t b now).status = x) ∧
      (applyUpdate t b now).updatedAt = now ∧
      (∀ d ∈ s.docs, d.id ≠ i → d ∈ (putTask i b now s).2.docs)) ∧
    (∀ j, b.id? = some j → j ≠ t.id →
      putTask i b now s =
        (⟨400, Body.msg "cannot modify immutable field _id"⟩, s)) := by
  obtain ⟨docs, fault⟩ := s
  cases hf
  constructor
  · intro hid
    have h1 : putTask i b now ⟨docs, none⟩ =
        (⟨200, Body.task (applyUpdate t b now)⟩,
          ⟨docs.map (fun d => if d.id == i then applyUpdate t b now else d),
            none⟩) := by
      rcases hid with hid | hid
      · simp only [putTask, Store.findByIdAndUpdate, hfind, hid]
      · simp only [putTask, Store.findByIdAndUpdate, hfind, hid,
          beq_self_eq_true, if_true]
    refine ⟨h1, rfl, rfl,
      fun h => by simp [applyUpdate, h],
      fun h => by simp [applyUpdate, h],
      fun h => by simp [applyUpdate, h],
      fun h => by simp [applyUpdate, h],
      fun x h => by simp [applyUpdate, h],
      fun x h => by simp [applyUpdate, h],
      fun x h => by simp [applyUpdate, h],
      fun x h => by simp [applyUpdate, h],
      rfl, fun d hd hdi => ?_⟩
    rw [h1]
    simp only [List.mem_map]
    exact ⟨d, hd, by simp [beq_eq_false_iff_ne.mpr hdi]⟩
  · intro j hj hne
    simp only [putTask, Store.findByIdAndUpdate, hfind, hj,
      beq_eq_false_iff_ne.mpr hne, if_false]
    rfl

/-- A PUT body supplying `title`, a new `createdAt`, and the addressed
document's own `_id`. -/
def putBodyOwnId : ReqBody :=
  { title? := some "Final report", createdAt? := some 999, id? := some 1 }

/-- A PUT body supplying `title` and a foreign `_id`. -/
def putBodyForeignId : ReqBody :=
  { title? := some "Final report", id? := some 7 }

/-- C5 witness: a PUT carrying `title`, a new `createdAt` and the
document's own `_id` replaces only `title` and `updatedAt` on
`demoTask`; the same PUT carrying a foreign `_id` answers 400 and leaves
the store unchanged. -/
theorem put_partial_update_witness :
    putTask 1 putBodyOwnId 42 demoStore =
      (⟨200, Body.task ⟨1, "Final report", none, none, "Pending", 10, 42⟩⟩,
        ⟨[⟨1, "Final report", none, none, "Pending", 10, 42⟩, demoTask2],
          none⟩) ∧
    putTask 1 putBodyForeignId 42 demoStore =
      (⟨400, Body.msg "cannot modify immutable field _id"⟩, demoStore) := by
  constructor
  · have h := ((put_partial_update_frame demoStore 1 demoTask putBodyOwnId
      42 rfl (by decide)).1 (Or.inr rfl)).1
    simpa [demoStore, demoTask, demoTask2, applyUpdate, putBodyOwnId] using h
  · exact (put_partial_update_frame demoStore 1 demoTask putBodyForeignId
      42 rfl (by decide)).2 7 rfl (by decide)

/-- C6.  When every stored status is in the enum, delete-all-completed
answers 200 with a message counting exactly the `N` completed documents
and leaves exactly the pending documents in the collection (all
survivors have status "Pending"). -/
theorem delete_completed_exact (s : Store) (hf : s.fault = none)
    (henum : ∀ t ∈ s.docs, t.status = "Pending" ∨ t.status = "Completed") :
    deleteCompleted s =
      (⟨200, Body.msg ("Deleted " ++
          toString (s.docs.filter (fun t => t.status == "Completed")).length
          ++ " completed tasks.")⟩,
        ⟨s.docs.filter (fun t => t.status == "Pending"), none⟩) ∧
    (∀ t ∈ (deleteCompleted s).2.docs, t.status = "Pending") ∧
    (deleteCompleted s).2.docs.length
        + (s.docs.filter (fun t => t.status == "Completed")).length
      = s.docs.length := by
  obtain ⟨docs, fault⟩ := s
  cases hf
  have hsplit : docs.filter (fun d => !(d.status == "Completed"))
      = docs.filter (fun t => t.status == "Pending") := by
    refine List.filter_congr fun t ht => ?_
    rcases henum t ht with h | h <;> simp [h]
  have h1 : deleteCompleted ⟨docs, none⟩ =
      (⟨200, Body.msg ("Deleted " ++
          toString (docs.filter (fun t => t.status == "Completed")).length
          ++ " completed tasks.")⟩,
        ⟨docs.filter (fun t => t.status == "Pending"), none⟩) := by
    simp only [deleteCompleted, Store.deleteMany, hsplit]
  refine ⟨h1, ?_, ?_⟩
  · rw [h1]
    intro t ht
    simpa using (List.mem_filter.mp ht).2
  · rw [h1, ← hsplit]
    exact length_filter_split docs _

/-- C6 witness: the demo store holds one completed and one pending task;
bulk delete reports count 1 and keeps only the pending one. -/
theorem delete_completed_witness :
    deleteCompleted demoStore =
      (⟨200, Body.msg "Deleted 1 completed tasks."⟩, ⟨[demoTask], none⟩) := by
  have h := (delete_completed_exact demoStore rfl (by decide)).1
  simpa [demoStore, demoTask, demoTask2] using h


/-- A pattern made only of literal tokens matches a prefix exactly when
the lower-cased keyword is a prefix of the lower-cased text. -/
theorem matchesAt_lit_eq_isPrefixList (ks : List Char) (cs : List Char) :
    matchesAt (ks.map RTok.lit) cs
      = isPrefixList (ks.map Char.toLower) (cs.map Char.toLower) := by
  induction ks generalizing cs with
  | nil => cases cs <;> rfl
  | cons a as ih =>
    cases cs with
    | nil => rfl
    | cons c cs =>
      simp only [List.map_cons, matchesAt, tokMatches, isPrefixList, ih]

/-- Unanchored search with a literal-only pattern is exactly
case-insensitive substring containment. -/
theorem regexFind_lit_eq_containsSub (ks : List Char) (cs : List Char) :
    regexFind (ks.map RTok.lit) cs
      = containsSub (ks.map Char.toLower) (cs.map Char.toLower) := by
  induction cs with
  | nil =>
    simpa [regexFind, containsSub] using matchesAt_lit_eq_isPrefixList ks []
  | cons c cs ih =>
    simp only [regexFind, containsSub, List.map_cons, ih]
    rw [matchesAt_lit_eq_isPrefixList]
    simp [List.map_cons]

/-- For a keyword free of every regex metacharacter (`litKeyword`), the
`$regex` test the search route issues coincides with case-insensitive
literal substring containment.  On such keywords the fragment model is
the full pattern language: every character is a literal. -/
theorem regexTest_eq_substrCI (k txt : String) (h : litKeyword k = true) :
    regexTest k txt = substrCI k txt := by
  have hall : ∀ c ∈ k.toList, (!(regexMeta.contains c)) = true :=
    List.all_eq_true.mp (by simpa [litKeyword] using h)
  have hpat : compilePat k = k.toList.map RTok.lit := by
    refine List.map_congr_left fun c hc => ?_
    have hnm := hall c hc
    have hc' : c ≠ '.' := by
      intro e
      subst e
      simp [regexMeta] at hnm
    exact if_neg hc'
  rw [regexTest, hpat, regexFind_lit_eq_containsSub]
  rfl

/-- C7.  For a keyword free of every regex metacharacter
(`litKeyword`, the only keywords on which the fragment model is the
full pattern language), keyword search answers 200 with exactly the
documents whose title or description contains the keyword as a
case-insensitive unanchored substring; the keyword is not escaped, so a
keyword holding a metacharacter is read with pattern semantics:
searching "B.y" returns the task titled "Buy milk" although "B.y" is
not a literal substring of its title or description. -/
theorem search_substring_and_pattern (keyword : String) (s : Store)
    (hf : s.fault = none) (hlit : litKeyword keyword = true) :
    (searchTasks keyword s =
      (⟨200, Body.tasks (s.docs.filter (fun t =>
          substrCI keyword t.title ||
          (match t.description with
           | some d => substrCI keyword d
           | none => false)))⟩, s)) ∧
    searchTasks "B.y" ⟨[demoTask2], none⟩ =
      (⟨200, Body.tasks [demoTask2]⟩, ⟨[demoTask2], none⟩) ∧
    substrCI "B.y" demoTask2.title = false ∧
    substrCI "B.y" "2 litres" = false := by
  refine ⟨?_, by decide, by decide, by decide⟩
  obtain ⟨docs, fault⟩ := s
  cases hf
  have hfilt : docs.filter (fun t =>
        regexTest keyword t.title ||
        (match t.description with
         | some d => regexTest keyword d
         | none => false))
      = docs.filter (fun t =>
        substrCI keyword t.title ||
        (match t.description with
         | some d => substrCI keyword d
         | none => false)) := by
    refine List.filter_congr fun t _ => ?_
    cases hdesc : t.description <;>
      simp [regexTest_eq_substrCI _ _ hlit, hdesc]
  simp only [searchTasks, Store.findWhere, hfilt]

/-- C7 witness: searching "MILK" in the demo store returns exactly the
task titled "Buy milk" (case-insensitive substring). -/
theorem search_substring_witness :
    searchTasks "MILK" demoStore = (⟨200, Body.tasks [demoTask2]⟩, demoStore) := by
  have h := (search_substring_and_pattern "MILK" demoStore rfl (by decide)).1
  simpa [demoStore, demoTask, demoTask2] using h

/-- C10.  A create request is insensitive to body keys outside the
schema (strict mode discards them), and on a valid body it answers 201
with the persisted document, which carries exactly the schema fields
from the body plus the store-generated id and timestamps. -/
theorem create_discards_unknown_fields (b : ReqBody)
    (extra2 : List (String × String)) (newId now : Nat) (s : Store)
    (τ : String) (ht : b.title? = some τ) (hτ : τ ≠ "")
    (hst : b.status? = none ∨ b.status? = some "Pending" ∨
      b.status? = some "Completed")
    (hf : s.fault = none) (_hid : b.id? = none) (_hca : b.createdAt? = none) :
    createTask { b with extra := extra2 } newId now s
      = createTask b newId now s ∧
    createTask b newId now s =
      (⟨201, Body.task ⟨newId, τ, b.description?, b.dueDate?,
          b.status?.getD "Pending", now, now⟩⟩,
        ⟨s.docs ++ [⟨newId, τ, b.description?, b.dueDate?,
          b.status?.getD "Pending", now, now⟩], none⟩) := by
  obtain ⟨docs, fault⟩ := s
  cases hf
  constructor
  · obtain ⟨t?, d?, dd?, st?, c?, i?, ex⟩ := b
    rfl
  · rcases hst with h | h | h <;>
      simp [createTask, Store.saveNew, ht, hτ, h, validStatus]

/-- The C10 demonstration body with two unknown keys. -/
def extraKeysBody : ReqBody :=
  { title? := some "Write report", extra := [("priority", "high"), ("tags", "work")] }

/-- C10 witness: a body carrying the unknown keys "priority" and "tags"
creates the same document as the same body without them, and the
response holds only schema fields plus id and timestamps. -/
theorem create_discards_unknown_witness :
    createTask extraKeysBody 3 50 demoStore
      = createTask { title? := some "Write report" } 3 50 demoStore ∧
    createTask { title? := some "Write report" } 3 50 demoStore =
      (⟨201, Body.task ⟨3, "Write report", none, none, "Pending", 50, 50⟩⟩,
        ⟨[demoTask, demoTask2, ⟨3, "Write report", none, none, "Pending", 50, 50⟩], none⟩) := by
  have h := create_discards_unknown_fields
    { title? := some "Write report" } [("priority", "high"), ("tags", "work")]
    3 50 demoStore "Write report" rfl (by decide) (Or.inl rfl) rfl rfl rfl
  exact ⟨h.1, by simpa [demoStore, demoTask, demoTask2] using h.2⟩

end TaskApi
